import Mathlib

/-!
Verification of the event-ingestion and analytics core of the PYUSD
CyberMatrix dashboard (`src/app.py`) against its natural-language
specification.

Modelling conventions, applied uniformly below:
* Python `int` is modelled by `Int` (or `Nat` for raw uint256 values).
* Decimal-scaled token amounts (Python `float` values produced by
  `raw / 10**decimals`) are modelled by exact rationals `ℚ`; properties
  that depend on binary64 rounding itself are out of scope.
* A Python function that signals failure by returning `None` is modelled
  with `Option` (`none` = the `None` failure marker).
* A Python exception that may escape a function is modelled with
  `Except String` (`.error k` = an uncaught `KeyError(k)`).
* pandas DataFrames are modelled as lists of rows; a cell that went
  through `pd.to_numeric(..., errors='coerce')` is an `Option ℚ`
  (`none` = NaN, which pandas sums skip).
-/

namespace PyusdApp

/-- Integer version of Python `math.ceil(a / b)` for `b ≠ 0`: the exact
rational ceiling of `a / b`.  (`app.py` line 1107 computes
`math.ceil(total_blocks / batch_size)` via binary64 float division, which
agrees with the exact ceiling throughout the realistic block-number range.) -/
def ceilDiv (a b : Int) : Int :=
  if 0 < b then (a + b - 1) / b else a / b

/-- The sub-range schedule generated by the loop of
`get_historical_events_batched` (`app.py` lines 1106-1116):
`num_batches = ceil((end_block - start_block + 1) / batch_size)` and batch
`i` spans `[start_block + i*batch_size, min end_block (start_block + i*batch_size + batch_size - 1)]`. -/
def batchRanges (start_block end_block batch_size : Int) : List (Int × Int) :=
  (List.range (ceilDiv (end_block - start_block + 1) batch_size).toNat).map
    (fun (i : Nat) => (start_block + (i : Int) * batch_size,
               min end_block (start_block + (i : Int) * batch_size + batch_size - 1)))

/-- The batch loop body of `get_historical_events_batched` (`app.py` lines
1114-1132): each sub-range is fetched in order; a sub-range returning the
`None` failure marker makes the whole operation return `None`, discarding the
events accumulated from earlier sub-ranges (`all_events` is a local that is
never returned on the failure path); otherwise results are concatenated in
schedule order. -/
def runBatches {α : Type} (fetch : Int × Int → Option (List α)) :
    List (Int × Int) → Option (List α)
  | [] => some []
  | r :: rs =>
    match fetch r with
    | none => none
    | some evs =>
      match runBatches fetch rs with
      | none => none
      | some rest => some (evs ++ rest)

/-- `get_historical_events_batched` (`app.py` lines 1095-1149), abstracted
over the per-sub-range fetch (`_fetch_events_base` plus the RPC transport,
whose failure modes all surface as `None`).  The model elides the
connection/token-info precondition check (line 1098), the progress bar, the
inter-batch `time.sleep(0.2)` and the final display-only descending sort of
the accumulated rows, none of which affect which sub-ranges are issued or
the success/failure outcome. -/
def get_historical_events_batched {α : Type} (fetch : Int × Int → Option (List α))
    (start_block end_block batch_size : Int) : Option (List α) :=
  runBatches fetch (batchRanges start_block end_block batch_size)

/-- A per-sub-range fetch that succeeds everywhere except on the final
sub-range `[250, 250]` of the schedule for `start=100, end=250, batch=50`. -/
def demoFailingFetch : Int × Int → Option (List Nat) :=
  fun r => if r.1 = 250 then none else some [r.1.toNat]

/-- One slot of the `st.cache_data` store.  Modelled from the documented
semantics of Streamlit's `st.cache_data` decorator, which wraps every
memoized operation of the core (`get_recent_events_df` at `app.py` 1053,
`get_historical_events_batched` at 1094, `get_token_info` at 635,
`get_address_balance` at 654): the wrapped function's return value is stored
under the key formed from the non-underscore-prefixed arguments, whatever
that value is — Python `None`, the failure marker all four fetchers return
on error, included; only a raised exception is not cached, and the fetchers
catch their exceptions and return `None` instead.  `value` is the stored
Python return value (`none` models Python `None`), `expiresAt` the end of
the TTL window. -/
structure CacheSlot (K V : Type) where
  key : K
  value : Option V
  expiresAt : Nat
  deriving DecidableEq

/-- Cache lookup at time `now`: the stored return value of the first
non-expired slot for the key, if any.  The outer `Option` is hit/miss; the
inner `Option V` is the stored Python return value. -/
def cacheLookup {K V : Type} [DecidableEq K] (now : Nat) (cache : List (CacheSlot K V))
    (k : K) : Option (Option V) :=
  match cache.find? (fun sl => decide (sl.key = k) && decide (now < sl.expiresAt)) with
  | some sl => some sl.value
  | none => none

/-- One call through the `st.cache_data` wrapper: on a hit the stored return
value is served and the underlying function does not run; on a miss the
underlying function runs and its return value — success or `None` failure
marker alike — is stored with expiry `now + ttl`.  Returns the call result,
the new cache state, and whether the underlying function ran. -/
def cachedCall {K V : Type} [DecidableEq K] (ttl now : Nat) (k : K)
    (compute : Unit → Option V) (cache : List (CacheSlot K V)) :
    Option V × List (CacheSlot K V) × Bool :=
  match cacheLookup now cache k with
  | some v => (v, cache, false)
  | none =>
    let v := compute ()
    (v, ⟨k, v, now + ttl⟩ :: cache, true)

/-- Two successive calls to the same memoized operation starting from an
empty cache: the first at time `t₁` with underlying fetch `c₁`, the second at
time `t₂` with underlying fetch `c₂`.  Returns the second call's result and
whether the second call re-executed the underlying fetch. -/
def secondCallResult {V : Type} (ttl t₁ t₂ : Nat) (c₁ c₂ : Unit → Option V) :
    Option V × Bool :=
  let first := cachedCall (K := Unit) ttl t₁ () c₁ []
  let second := cachedCall ttl t₂ () c₂ first.2.1
  (second.1, second.2.2)

/-- `MAX_UINT256 = 2**256 - 1` (`app.py` line 71), the sentinel raw value of
an unlimited approval. -/
def MAX_UINT256 : Nat := 2 ^ 256 - 1

/-- The decoded `args` of one raw event log.  Python keeps all decoded
parameters in one `AttributeDict`; the model splits them by value type into
address-valued (`strs`) and uint-valued (`ints`) parameters, which is the
only distinction the processing functions consume.  A missing key raises
`KeyError` in Python; the lookups below return `Except` accordingly. -/
structure LogArgs where
  strs : List (String × String)
  ints : List (String × Nat)
  deriving DecidableEq

/-- One raw event log as handed to a processing function. -/
structure RawLog where
  blockNumber : Int
  transactionHash : String
  args : LogArgs
  deriving DecidableEq

/-- Python `log['args'][k]` for an address-valued parameter: the value, or a
raised `KeyError k`. -/
def lookupStrArg (args : LogArgs) (k : String) : Except String String :=
  match args.strs.find? (fun p => p.1 = k) with
  | some p => Except.ok p.2
  | none => Except.error k

/-- Python `log['args'][k]` for a uint-valued parameter: the value, or a
raised `KeyError k`. -/
def lookupIntArg (args : LogArgs) (k : String) : Except String Nat :=
  match args.ints.find? (fun p => p.1 = k) with
  | some p => Except.ok p.2
  | none => Except.error k

/-- The `token_info` dictionary fields the normalizer consumes
(`get_token_info`, `app.py` 636-646). -/
structure TokenInfo where
  decimals : Nat
  symbol : String
  deriving DecidableEq

/-- `KNOWN_ADDRESSES` (`app.py` lines 126-131): the static known-address
directory, a single entry for the PYUSD contract. -/
def KNOWN_ADDRESSES : List (String × String) :=
  [("0x6c3Ea9036406852006290770BEdFcAbA0E23A0e8", "PYUSD Contract")]

/-- `get_address_label` (`app.py` 625-632): directory label if known, else
the truncated `first6...last4` fallback.  `Web3.to_checksum_address` is
modelled as the identity (addresses are taken as already checksummed, as the
directory's comment requires). -/
def get_address_label (address : String) : String :=
  match KNOWN_ADDRESSES.find? (fun p => p.1 = address) with
  | some p => p.2 ++ " (" ++ address.take 6 ++ "..." ++ address.drop (address.length - 4) ++ ")"
  | none => address.take 6 ++ "..." ++ address.drop (address.length - 4)

/-- The record built by `_process_transfer_event` (`app.py` 986-998). -/
structure TransferRec where
  timestamp : Option Nat
  block : Int
  txHash : String
  fromAddr : String
  toAddr : String
  value : ℚ
  fromTagged : String
  toTagged : String
  deriving DecidableEq

/-- The record built by `_process_mint_event` (`app.py` 1000-1016). -/
structure MintRec where
  timestamp : Option Nat
  block : Int
  txHash : String
  recipient : String
  amount : ℚ
  recipientTagged : String
  deriving DecidableEq

/-- The record built by `_process_burn_event` (`app.py` 1018-1034). -/
structure BurnRec where
  timestamp : Option Nat
  block : Int
  txHash : String
  burner : String
  amount : ℚ
  burnerTagged : String
  deriving DecidableEq

/-- The record built by `_process_approval_event` (`app.py` 1036-1049). -/
structure ApprovalRec where
  timestamp : Option Nat
  block : Int
  txHash : String
  owner : String
  spender : String
  amount : ℚ
  unlimited : Bool
  ownerTagged : String
  spenderTagged : String
  deriving DecidableEq

/-- `_process_transfer_event` (`app.py` 986-998).  Returns `.ok none` when
`token_info` is unavailable (record dropped), `.ok (some r)` on success, and
`.error k` for a missing argument key — there is no `try/except` here, so the
`KeyError` escapes to the caller.  The amount is the decimal-scaled
`value / 10**decimals` (exact rational model of the Python float). -/
def _process_transfer_event (token_info : Option TokenInfo) (log : RawLog)
    (timestamp : Option Nat) : Except String (Option TransferRec) := do
  match token_info with
  | none => return none
  | some ti =>
    let value ← lookupIntArg log.args "value"
    let fromA ← lookupStrArg log.args "from"
    let toA ← lookupStrArg log.args "to"
    return some
      { timestamp := timestamp, block := log.blockNumber, txHash := log.transactionHash
        fromAddr := fromA, toAddr := toA
        value := (value : ℚ) / 10 ^ ti.decimals
        fromTagged := get_address_label fromA, toTagged := get_address_label toA }

/-- `_process_mint_event` (`app.py` 1000-1016).  The `amount`/`to` accesses
sit inside `try/except KeyError`, so a missing key skips the single record
(`.ok none`, warning counted) instead of raising. -/
def _process_mint_event (token_info : Option TokenInfo) (log : RawLog)
    (timestamp : Option Nat) : Except String (Option MintRec) :=
  match token_info with
  | none => Except.ok none
  | some ti =>
    match lookupIntArg log.args "amount", lookupStrArg log.args "to" with
    | Except.ok amount, Except.ok recipient =>
      Except.ok (some
        { timestamp := timestamp, block := log.blockNumber, txHash := log.transactionHash
          recipient := recipient, amount := (amount : ℚ) / 10 ^ ti.decimals
          recipientTagged := get_address_label recipient })
    | _, _ => Except.ok none

/-- `_process_burn_event` (`app.py` 1018-1034), with the same
`try/except KeyError` skip as the mint processor. -/
def _process_burn_event (token_info : Option TokenInfo) (log : RawLog)
    (timestamp : Option Nat) : Except String (Option BurnRec) :=
  match token_info with
  | none => Except.ok none
  | some ti =>
    match lookupIntArg log.args "amount", lookupStrArg log.args "from" with
    | Except.ok amount, Except.ok burner =>
      Except.ok (some
        { timestamp := timestamp, block := log.blockNumber, txHash := log.transactionHash
          burner := burner, amount := (amount : ℚ) / 10 ^ ti.decimals
          burnerTagged := get_address_label burner })
    | _, _ => Except.ok none

/-- `_process_approval_event` (`app.py` 1036-1049).  No `try/except`: a
missing key raises.  `unlimited` is `value == MAX_UINT256`. -/
def _process_approval_event (token_info : Option TokenInfo) (log : RawLog)
    (timestamp : Option Nat) : Except String (Option ApprovalRec) := do
  match token_info with
  | none => return none
  | some ti =>
    let value ← lookupIntArg log.args "value"
    let owner ← lookupStrArg log.args "owner"
    let spender ← lookupStrArg log.args "spender"
    return some
      { timestamp := timestamp, block := log.blockNumber, txHash := log.transactionHash
        owner := owner, spender := spender
        amount := (value : ℚ) / 10 ^ ti.decimals
        unlimited := decide (value = MAX_UINT256)
        ownerTagged := get_address_label owner, spenderTagged := get_address_label spender }

/-- A raw Approval log carrying exactly the three decoded parameters the
Approval processor reads. -/
def approvalLog (owner spender : String) (v : Nat) : RawLog :=
  { blockNumber := 0, transactionHash := "0xabc"
    args := { strs := [("owner", owner), ("spender", spender)], ints := [("value", v)] } }

/-- The per-log processing loop of `_fetch_events_base` (`app.py` 961-964):
each log is processed with its resolved timestamp; a falsy (skipped) result
is dropped, a processed record is appended.  An exception raised by the
processor is not caught here — it unwinds to the range-level handler. -/
def processLogs {α : Type} (getTs : Int → Option Nat)
    (process : RawLog → Option Nat → Except String (Option α)) :
    List RawLog → Except String (List α)
  | [] => Except.ok []
  | l :: ls =>
    match process l (getTs l.blockNumber) with
    | Except.error k => Except.error k
    | Except.ok none => processLogs getTs process ls
    | Except.ok (some r) =>
      match processLogs getTs process ls with
      | Except.error k => Except.error k
      | Except.ok rest => Except.ok (r :: rest)

/-- `_fetch_events_base` (`app.py` 936-982), from the point where the raw
logs have been retrieved: an empty log list is the success-empty `some []`;
otherwise the logs are processed in order, and any exception escaping a
processor is caught by the range-level `except` handlers, which turn the
whole range into the `None` failure (`app.py` 977-982).  The timestamp
resolver is abstracted as `getTs` (a per-block failure is already a `none`
timestamp, not an exception). -/
def _fetch_events_base {α : Type} (getTs : Int → Option Nat)
    (process : RawLog → Option Nat → Except String (Option α))
    (logs : List RawLog) : Option (List α) :=
  if logs.isEmpty then some []
  else
    match processLogs getTs process logs with
    | Except.error _ => none
    | Except.ok evs => some evs

/-- A Transfer log whose decoded args lack the expected `value` field. -/
def badTransferLog : RawLog :=
  { blockNumber := 7, transactionHash := "0xt1"
    args := { strs := [("from", "0xAaaa"), ("to", "0xBbbb")], ints := [] } }

/-- An Approval log whose decoded args lack the expected `value` field. -/
def badApprovalLog : RawLog :=
  { blockNumber := 8, transactionHash := "0xa1"
    args := { strs := [("owner", "0xAaaa"), ("spender", "0xBbbb")], ints := [] } }

/-- A Mint log whose decoded args lack the expected `amount` field. -/
def badMintLog : RawLog :=
  { blockNumber := 9, transactionHash := "0xm1"
    args := { strs := [("to", "0xAaaa")], ints := [] } }

/-- A Burn log whose decoded args lack the expected `amount` field. -/
def badBurnLog : RawLog :=
  { blockNumber := 10, transactionHash := "0xb1"
    args := { strs := [("from", "0xAaaa")], ints := [] } }

/-- A token-info value for concrete evaluations: 6 decimals, like PYUSD. -/
def demoTokenInfo : TokenInfo := { decimals := 6, symbol := "PYUSD" }

/-- `calculate_transfer_volume_from_df` (`app.py` 1163-1173): 0 for a
missing/empty frame, else the sum of `pd.to_numeric(col, errors='coerce')`,
whose NaN entries (the `none` cells) the pandas sum skips.  The frame is
modelled by its value column. -/
def calculate_transfer_volume_from_df (values : List (Option ℚ)) : ℚ :=
  if values.isEmpty then 0 else (values.filterMap id).sum

/-- Stable insertion of `x` into `l`, placing `x` before the first element
`y` with `le x y`. -/
def insertBy {α : Type} (le : α → α → Bool) (x : α) : List α → List α
  | [] => [x]
  | y :: ys => if le x y then x :: y :: ys else y :: insertBy le x ys

/-- Stable insertion sort by the boolean relation `le`; models the pandas
sorts below (key order for ties does not matter to any claim: group keys are
distinct after dedup). -/
def sortBy {α : Type} (le : α → α → Bool) (l : List α) : List α :=
  l.foldr (insertBy le) []

/-- The summed numeric volume of one address in the chosen role column
(`df.groupby(direction)[value_col].sum()` for one group): NaN cells are
skipped by the pandas sum. -/
def sumOptVals (rows : List (String × Option ℚ)) (a : String) : ℚ :=
  ((rows.filter (fun r => decide (r.1 = a))).filterMap (fun r => r.2)).sum

/-- The distinct group keys of a pandas `groupby`, one entry per group.
pandas orders group keys ascending; the model keeps a canonical structural
order instead, because no claimed property depends on the group order: the
aggregated frame is re-sorted by volume before any output is taken, and that
pandas sort (`sort_values`, quicksort) is itself unstable, so the source
leaves the order among equal volumes unspecified anyway. -/
def dedupKeys {α : Type} [DecidableEq α] : List α → List α
  | [] => []
  | a :: l => if a ∈ dedupKeys l then dedupKeys l else a :: dedupKeys l

/-- The group keys of `df.groupby(direction)` restricted to the role
column. -/
def groupKeys (rows : List (String × Option ℚ)) : List String :=
  dedupKeys (rows.map Prod.fst)

/-- The `address_volume` frame of `plot_top_addresses_pie` (`app.py`
1263-1265): per-address summed volume, zero/negative totals filtered out. -/
def address_volume (rows : List (String × Option ℚ)) : List (String × ℚ) :=
  ((groupKeys rows).map (fun a => (a, sumOptVals rows a))).filter
    (fun p => decide (0 < p.2))

/-- `address_volume.sort_values(value_col, ascending=False)` (`app.py`
1266). -/
def address_volume_sorted (rows : List (String × Option ℚ)) : List (String × ℚ) :=
  sortBy (fun p q => decide (q.2 ≤ p.2)) (address_volume rows)

/-- The data aggregation of `plot_top_addresses_pie` (`app.py` 1244-1283)
for the chosen role (`direction`) column: rank addresses by summed volume
descending; when more than `top_n` remain, keep the top `top_n` and bucket
the rest as `"Other Addresses"` with its summed volume, omitting the bucket
when that sum is not above the `1e-9` negligibility cutoff (`app.py`
1270-1278).  Chart-only concerns (labels, hover data, colors) are elided. -/
def plot_top_addresses_pie (rows : List (String × Option ℚ)) (top_n : Nat) :
    List (String × ℚ) :=
  let av := address_volume_sorted rows
  if top_n < av.length then
    let top := av.take top_n
    let other_sum := ((av.drop top_n).map Prod.snd).sum
    if (1 : ℚ) / 10 ^ 9 < other_sum then top ++ [("Other Addresses", other_sum)]
    else top
  else av

/-- The claim's Top-N example: five senders with volumes 50, 30, 20, 5, 5. -/
def demoVolumeRows : List (String × Option ℚ) :=
  [("0xa", some 50), ("0xb", some 30), ("0xc", some 20), ("0xd", some 5), ("0xe", some 5)]

/-- `df_graph.dropna(subset=[value_col])` after coercion (`app.py`
1315-1316): rows whose value coerced to NaN are removed.  A graph row is
`(From, To, value)`. -/
def dropnaRows (rows : List (String × String × Option ℚ)) :
    List (String × String × ℚ) :=
  rows.filterMap (fun r => r.2.2.map (fun v => (r.1, r.2.1, v)))

/-- `total_volume=(value_col, 'sum')` of one `(From, To)` group. -/
def pairVolume (rows : List (String × String × ℚ)) (k : String × String) : ℚ :=
  ((rows.filter (fun r => decide ((r.1, r.2.1) = k))).map (fun r => r.2.2)).sum

/-- `transfer_count=(value_col, 'size')` of one `(From, To)` group. -/
def pairCount (rows : List (String × String × ℚ)) (k : String × String) : Nat :=
  (rows.filter (fun r => decide ((r.1, r.2.1) = k))).length

/-- `df_graph.groupby(['From','To']).agg(total_volume=..., transfer_count=...)`
(`app.py` 1320-1323); the tagged-label group columns are functions of the
address pair and do not refine the partition. -/
def aggregatePairs (rows : List (String × String × ℚ)) :
    List ((String × String) × ℚ × Nat) :=
  (dedupKeys (rows.map (fun r => (r.1, r.2.1)))).map
    (fun k => (k, pairVolume rows k, pairCount rows k))

/-- The data part of `plot_network_graph` (`app.py` 1306-1331): coerce and
drop NaN rows, filter INDIVIDUAL rows by
`df_graph[value_col] >= value_threshold` (`app.py` 1317), aggregate the
surviving rows per `(From, To)` pair, sort by aggregated volume descending
and keep the first `top_n_edges` (`app.py` 1326-1327). -/
def plot_network_graph (rows : List (String × String × Option ℚ))
    (value_threshold : ℚ) (top_n_edges : Nat) :
    List ((String × String) × ℚ × Nat) :=
  let df_graph := (dropnaRows rows).filter (fun r => decide (value_threshold ≤ r.2.2))
  (sortBy (fun e₁ e₂ => decide (e₂.2.1 ≤ e₁.2.1)) (aggregatePairs df_graph)).take
    top_n_edges

/-- The transfer-graph pipeline in the order the spec words it (reference
definition for the refinement comparison, spec §4.6): aggregate per pair
first, THEN filter out pairs whose aggregated volume is below the threshold,
then keep the top-K. -/
def specTransferGraph (rows : List (String × String × Option ℚ))
    (value_threshold : ℚ) (top_n_edges : Nat) :
    List ((String × String) × ℚ × Nat) :=
  (sortBy (fun e₁ e₂ => decide (e₂.2.1 ≤ e₁.2.1))
    ((aggregatePairs (dropnaRows rows)).filter
      (fun e => decide (value_threshold ≤ e.2.1)))).take top_n_edges

theorem runBatches_of_mem_none {α : Type} (fetch : Int × Int → Option (List α))
    (l : List (Int × Int)) (h : ∃ r ∈ l, fetch r = none) :
    runBatches fetch l = none := by
  induction l with
  | nil => simp at h
  | cons r rs ih =>
    obtain ⟨r', hr', hfr'⟩ := h
    rcases List.mem_cons.mp hr' with h1 | h2
    · subst h1
      simp [runBatches, hfr']
    · cases hf : fetch r with
      | none => simp [runBatches, hf]
      | some evs =>
        simp only [runBatches, hf]
        rw [ih ⟨r', h2, hfr'⟩]

theorem batchRanges_length (s e b : Int) :
    (batchRanges s e b).length = (ceilDiv (e - s + 1) b).toNat := by
  unfold batchRanges
  rw [List.length_map, List.length_range]

theorem batchRanges_get (s e b : Int) (i : Nat) (h : i < (batchRanges s e b).length) :
    (batchRanges s e b).get ⟨i, h⟩ =
      (s + (i : Int) * b, min e (s + (i : Int) * b + b - 1)) := by
  unfold batchRanges
  simp only [List.get_eq_getElem]
  rw [List.getElem_map, List.getElem_range]

theorem ceilDiv_bounds (T b : Int) (hb : 0 < b) :
    T ≤ b * ceilDiv T b ∧ b * (ceilDiv T b - 1) < T := by
  have hb0 : b ≠ 0 := ne_of_gt hb
  have hdm := Int.ediv_add_emod (T + b - 1) b
  have hr0 := Int.emod_nonneg (T + b - 1) hb0
  have hrb := Int.emod_lt_of_pos (T + b - 1) hb
  unfold ceilDiv
  rw [if_pos hb]
  constructor
  · nlinarith
  · nlinarith

/-- C1: if any sub-range call of the batched historical fetcher fails, the
overall operation returns the failure marker, and no records accumulated from
earlier successful sub-ranges are returned to the caller (the result carries
no record list at all). -/
theorem get_historical_events_batched_fail_closed {α : Type}
    (fetch : Int × Int → Option (List α)) (start_block end_block batch_size : Int)
    (h : ∃ r ∈ batchRanges start_block end_block batch_size, fetch r = none) :
    get_historical_events_batched fetch start_block end_block batch_size = none :=
  runBatches_of_mem_none fetch _ h

theorem get_historical_events_batched_fail_closed_witness :
    (∃ r ∈ batchRanges 100 250 50, demoFailingFetch r = none)
    ∧ get_historical_events_batched demoFailingFetch 100 250 50 = none :=
  ⟨by decide, get_historical_events_batched_fail_closed demoFailingFetch 100 250 50 (by decide)⟩

/-- C2: for valid inputs (`start ≤ end`, `batchSize ≥ 1`) the sub-range
schedule has exactly `⌈(end - start + 1) / batchSize⌉` entries, every entry is
a well-formed range, consecutive entries are adjacent (ascending and
non-overlapping), the first entry starts at `start` and the last ends at
`end` — so the sub-ranges exactly tile `[start, end]`. -/
theorem batchRanges_tile (s e b : Int) (hse : s ≤ e) (hb : 1 ≤ b) :
    ((batchRanges s e b).length : Int) = ⌈((e : ℚ) - (s : ℚ) + 1) / (b : ℚ)⌉
    ∧ (∀ (i : Nat) (hi : i < (batchRanges s e b).length),
        ((batchRanges s e b).get ⟨i, hi⟩).1 ≤ ((batchRanges s e b).get ⟨i, hi⟩).2)
    ∧ (∀ (i : Nat) (hi : i + 1 < (batchRanges s e b).length),
        ((batchRanges s e b).get ⟨i + 1, hi⟩).1
          = ((batchRanges s e b).get ⟨i, Nat.lt_of_succ_lt hi⟩).2 + 1)
    ∧ (∀ h0 : 0 < (batchRanges s e b).length, ((batchRanges s e b).get ⟨0, h0⟩).1 = s)
    ∧ (∀ hl : (batchRanges s e b).length - 1 < (batchRanges s e b).length,
        ((batchRanges s e b).get
          ⟨(batchRanges s e b).length - 1, hl⟩).2 = e)
    ∧ 0 < (batchRanges s e b).length := by
  have hb0 : (0 : Int) < b := by linarith
  obtain ⟨hTle, hlt⟩ := ceilDiv_bounds (e - s + 1) b hb0
  have hn1 : 1 ≤ ceilDiv (e - s + 1) b := by
    by_contra hcon
    push_neg at hcon
    have h0 : ceilDiv (e - s + 1) b ≤ 0 := by linarith
    nlinarith
  have hlen : (batchRanges s e b).length = (ceilDiv (e - s + 1) b).toNat :=
    batchRanges_length s e b
  have hcast : ((batchRanges s e b).length : Int) = ceilDiv (e - s + 1) b := by
    rw [hlen, Int.toNat_of_nonneg (by linarith)]
  have hmul : ∀ i : Nat, i < (batchRanges s e b).length → (i : Int) * b ≤ e - s := by
    intro i hi
    have h1 : (i : Int) ≤ ceilDiv (e - s + 1) b - 1 := by omega
    have h2 : (i : Int) * b ≤ (ceilDiv (e - s + 1) b - 1) * b :=
      mul_le_mul_of_nonneg_right h1 (by linarith)
    nlinarith
  refine ⟨?_, ?_, ?_, ?_, ?_, ?_⟩
  · rw [hcast]
    have hbQ : (0 : ℚ) < (b : ℚ) := by exact_mod_cast hb0
    symm
    rw [Int.ceil_eq_iff]
    constructor
    · rw [sub_lt_iff_lt_add, div_add' _ _ _ (ne_of_gt hbQ), lt_div_iff₀ hbQ]
      have hint : (ceilDiv (e - s + 1) b) * b < e - s + 1 + 1 * b := by nlinarith
      exact_mod_cast hint
    · rw [div_le_iff₀ hbQ]
      have hint : e - s + 1 ≤ (ceilDiv (e - s + 1) b) * b := by nlinarith
      exact_mod_cast hint
  · intro i hi
    rw [batchRanges_get]
    dsimp only
    refine le_min ?_ (by linarith)
    have := hmul i hi
    linarith
  · intro i hi
    rw [batchRanges_get, batchRanges_get]
    dsimp only
    have h := hmul (i + 1) hi
    push_cast at h
    have hle : s + (i : Int) * b + b - 1 ≤ e := by nlinarith
    rw [min_eq_right hle]
    push_cast
    ring
  · intro h0
    rw [batchRanges_get]
    dsimp only
    push_cast
    ring
  · intro hl
    rw [batchRanges_get]
    dsimp only
    have hcast2 : (((batchRanges s e b).length - 1 : ℕ) : Int)
        = ceilDiv (e - s + 1) b - 1 := by omega
    rw [hcast2]
    have hemin : e ≤ s + (ceilDiv (e - s + 1) b - 1) * b + b - 1 := by nlinarith
    rw [min_eq_left hemin]
  · omega

theorem batchRanges_tile_witness :
    batchRanges 100 250 50 = [(100, 149), (150, 199), (200, 249), (250, 250)]
    ∧ 0 < (batchRanges 100 250 50).length :=
  ⟨by decide, (batchRanges_tile 100 250 50 (by norm_num) (by norm_num)).2.2.2.2.2⟩

/-- C3 counterexample: the claim says a call with `start > end` is rejected as
a failure before any RPC call; on the code, `start=5, end=3, batch=1000`
issues no sub-range call (the fetch oracle here fails on every range, so any
issued call would force a `none` result) yet the operation returns the
success-empty outcome `some []`, not the failure marker `none`. -/
theorem no_range_validation_counterexample :
    get_historical_events_batched (fun _ => (none : Option (List Nat))) 5 3 1000 = some []
    ∧ some ([] : List Nat) ≠ none := by
  exact ⟨by decide, by decide⟩

/-- C3 amended: with `start > end` and `batchSize ≥ 1`, or with `start ≤ end`
and `batchSize ≤ -1`, the batch schedule is empty, so no RPC call is
attempted, but the operation returns success-empty (`some []`) rather than a
failure; the range precondition is never validated.  (For `batchSize = 0` the
Python code raises an uncaught `ZeroDivisionError` at the batch-count
computation, also before any RPC call; the division is not modelled at 0.) -/
theorem no_rpc_on_invalid_range {α : Type} (fetch : Int × Int → Option (List α))
    (s e b : Int) (h : (e < s ∧ 1 ≤ b) ∨ (s ≤ e ∧ b ≤ -1)) :
    batchRanges s e b = [] ∧ get_historical_events_batched fetch s e b = some [] := by
  have hlen0 : ceilDiv (e - s + 1) b ≤ 0 := by
    rcases h with ⟨hes, hb⟩ | ⟨hse, hb⟩
    · have hb0 : (0 : Int) < b := by linarith
      unfold ceilDiv
      rw [if_pos hb0]
      have : e - s + 1 + b - 1 < 1 * b := by linarith
      have := (Int.ediv_lt_iff_lt_mul hb0).mpr this
      linarith
    · unfold ceilDiv
      rw [if_neg (by linarith : ¬ (0 : Int) < b)]
      exact Int.ediv_nonpos (by linarith) (by linarith)
  have hnil : batchRanges s e b = [] := by
    apply List.eq_nil_of_length_eq_zero
    rw [batchRanges_length]
    omega
  exact ⟨hnil, by simp [get_historical_events_batched, hnil, runBatches]⟩

theorem insertBy_perm {α : Type} (le : α → α → Bool) (x : α) (l : List α) :
    (insertBy le x l).Perm (x :: l) := by
  induction l with
  | nil => exact List.Perm.refl _
  | cons y ys ih =>
    unfold insertBy
    by_cases h : le x y = true
    · rw [if_pos h]
    · rw [if_neg h]
      exact (ih.cons y).trans (List.Perm.swap x y ys)

theorem sortBy_perm {α : Type} (le : α → α → Bool) (l : List α) :
    (sortBy le l).Perm l := by
  induction l with
  | nil => exact List.Perm.refl _
  | cons x xs ih =>
    show (insertBy le x (sortBy le xs)).Perm (x :: xs)
    exact (insertBy_perm le x _).trans (ih.cons x)

theorem pairwise_insertBy {α : Type} (le : α → α → Bool)
    (htot : ∀ a b : α, le a b = true ∨ le b a = true)
    (htrans : ∀ a b c : α, le a b = true → le b c = true → le a c = true)
    (x : α) (l : List α) (hl : l.Pairwise (fun a b => le a b = true)) :
    (insertBy le x l).Pairwise (fun a b => le a b = true) := by
  induction l with
  | nil => simp [insertBy]
  | cons y ys ih =>
    rcases List.pairwise_cons.mp hl with ⟨hy, hys⟩
    unfold insertBy
    by_cases h : le x y = true
    · rw [if_pos h]
      refine List.pairwise_cons.mpr ⟨?_, hl⟩
      intro z hz
      rcases List.mem_cons.mp hz with rfl | hz'
      · exact h
      · exact htrans x y z h (hy z hz')
    · rw [if_neg h]
      refine List.pairwise_cons.mpr ⟨?_, ih hys⟩
      intro z hz
      rcases List.mem_cons.mp ((insertBy_perm le x ys).mem_iff.mp hz) with rfl | hz'
      · rcases htot z y with hxy | hyx
        · exact absurd hxy h
        · exact hyx
      · exact hy z hz'

theorem pairwise_sortBy {α : Type} (le : α → α → Bool)
    (htot : ∀ a b : α, le a b = true ∨ le b a = true)
    (htrans : ∀ a b c : α, le a b = true → le b c = true → le a c = true)
    (l : List α) : (sortBy le l).Pairwise (fun a b => le a b = true) := by
  induction l with
  | nil => simp [sortBy]
  | cons x xs ih => exact pairwise_insertBy le htot htrans x _ ih

theorem mem_address_volume {rows : List (String × Option ℚ)} {p : String × ℚ}
    (hp : p ∈ address_volume rows) : p.2 = sumOptVals rows p.1 ∧ 0 < p.2 := by
  unfold address_volume at hp
  rcases List.mem_filter.mp hp with ⟨hmem, hpos⟩
  obtain ⟨a, _, rfl⟩ := List.mem_map.mp hmem
  exact ⟨rfl, of_decide_eq_true hpos⟩

theorem mem_aggregatePairs {rows : List (String × String × ℚ)}
    {e : (String × String) × ℚ × Nat} (he : e ∈ aggregatePairs rows) :
    e.2.1 = pairVolume rows e.1 ∧ e.2.2 = pairCount rows e.1 := by
  unfold aggregatePairs at he
  obtain ⟨k, _, rfl⟩ := List.mem_map.mp he
  exact ⟨rfl, rfl⟩

/-- C5: every normalized Approval record (the processor reads exactly the
owner, spender and value parameters of the log) has its unlimited flag true
if and only if the raw approval value equals `2^256 - 1`. -/
theorem approval_unlimited_iff (ti : TokenInfo) (owner spender : String) (v : Nat)
    (ts : Option Nat) :
    ∃ r : ApprovalRec,
      _process_approval_event (some ti) (approvalLog owner spender v) ts
        = Except.ok (some r)
      ∧ (r.unlimited = true ↔ v = MAX_UINT256) := by
  refine ⟨{ timestamp := ts, block := 0, txHash := "0xabc", owner := owner
            spender := spender, amount := (v : ℚ) / 10 ^ ti.decimals
            unlimited := decide (v = MAX_UINT256)
            ownerTagged := get_address_label owner
            spenderTagged := get_address_label spender }, rfl, ?_⟩
  simp

theorem approval_unlimited_iff_witness :
    (∃ r : ApprovalRec,
      _process_approval_event (some demoTokenInfo)
          (approvalLog "0xOwner" "0xSpender" (2 ^ 256 - 1)) none = Except.ok (some r)
      ∧ r.unlimited = true)
    ∧ (∃ r : ApprovalRec,
      _process_approval_event (some demoTokenInfo)
          (approvalLog "0xOwner" "0xSpender" (2 ^ 256 - 2)) none = Except.ok (some r)
      ∧ r.unlimited = false)
    ∧ (∃ r : ApprovalRec,
      _process_approval_event (some demoTokenInfo)
          (approvalLog "0xOwner" "0xSpender" 0) none = Except.ok (some r)
      ∧ r.unlimited = false) := by
  refine ⟨?_, ?_, ?_⟩
  · obtain ⟨r, hr, hiff⟩ :=
      approval_unlimited_iff demoTokenInfo "0xOwner" "0xSpender" (2 ^ 256 - 1) none
    exact ⟨r, hr, hiff.mpr rfl⟩
  · obtain ⟨r, hr, hiff⟩ :=
      approval_unlimited_iff demoTokenInfo "0xOwner" "0xSpender" (2 ^ 256 - 2) none
    refine ⟨r, hr, ?_⟩
    cases hu : r.unlimited
    · rfl
    · exact absurd (hiff.mp hu) (by decide)
  · obtain ⟨r, hr, hiff⟩ :=
      approval_unlimited_iff demoTokenInfo "0xOwner" "0xSpender" 0 none
    refine ⟨r, hr, ?_⟩
    cases hu : r.unlimited
    · rfl
    · exact absurd (hiff.mp hu) (by decide)

/-- C10: a Transfer or Approval log whose decoded args lack an expected field
makes the whole single-range fetch return the `None` failure for that range
(the missing-key exception escapes the per-log loop into the range-level
handler), while the try/except skip-with-warning guards only Mint and Burn
processing, whose malformed logs are dropped and leave the range a
success-empty. -/
theorem missing_key_fails_range :
    _fetch_events_base (fun _ => none)
        (_process_transfer_event (some demoTokenInfo)) [badTransferLog] = none
    ∧ _fetch_events_base (fun _ => none)
        (_process_approval_event (some demoTokenInfo)) [badApprovalLog] = none
    ∧ _fetch_events_base (fun _ => none)
        (_process_mint_event (some demoTokenInfo)) [badMintLog] = some []
    ∧ _fetch_events_base (fun _ => none)
        (_process_burn_event (some demoTokenInfo)) [badBurnLog] = some [] :=
  ⟨rfl, rfl, rfl, rfl⟩

/-- C4 counterexample: the claim says a failed outcome is never stored and a
repeated call within the TTL window re-executes the fetch; on the code, a
first call whose fetch fails (returns the `None` marker) stores that marker,
and a repeated call 30s later inside the 60s TTL window returns the cached
failure (`none`) without re-executing the underlying fetch (`false`), even
though the retry would have succeeded (`some 1`). -/
theorem cached_failure_counterexample :
    secondCallResult 60 0 30 (fun _ => (none : Option Nat)) (fun _ => some 1)
      = (none, false) := by
  decide

/-- C4 amended: every outcome returned by a memoized operation — the `None`
failure marker included — is stored in the cache; a call repeated within the
same TTL window returns the first call's outcome, whatever it was, without
re-executing the underlying fetch.  Only outcomes delivered by raising an
exception are not cached, and the fetchers catch exceptions and return
`None`. -/
theorem cache_stores_all_outcomes {V : Type} (ttl t₁ t₂ : Nat)
    (c₁ c₂ : Unit → Option V) (h : t₂ < t₁ + ttl) :
    secondCallResult ttl t₁ t₂ c₁ c₂ = (c₁ (), false) := by
  simp [secondCallResult, cachedCall, cacheLookup, List.find?, h]

theorem cache_stores_all_outcomes_witness :
    30 < 0 + 60
    ∧ secondCallResult 60 0 30 (fun _ => (none : Option Nat)) (fun _ => some 1)
        = ((fun _ => (none : Option Nat)) (), false) :=
  ⟨by norm_num,
   cache_stores_all_outcomes 60 0 30 (fun _ => none) (fun _ => some 1) (by norm_num)⟩

theorem no_rpc_on_invalid_range_witness :
    ((3 : Int) < 5 ∧ (1 : Int) ≤ 1000)
    ∧ batchRanges 5 3 1000 = []
    ∧ get_historical_events_batched (fun _ => (none : Option (List Nat))) 5 3 1000
        = some [] :=
  ⟨⟨by norm_num, by norm_num⟩,
   no_rpc_on_invalid_range (fun _ => (none : Option (List Nat))) 5 3 1000
     (Or.inl ⟨by norm_num, by norm_num⟩)⟩

/-- C7: the total volume computed by the aggregator is invariant under any
permutation of the input record collection. -/
theorem calculate_transfer_volume_perm (l₁ l₂ : List (Option ℚ)) (h : l₁.Perm l₂) :
    calculate_transfer_volume_from_df l₁ = calculate_transfer_volume_from_df l₂ := by
  unfold calculate_transfer_volume_from_df
  by_cases hc : l₁ = []
  · subst hc
    rw [h.symm.eq_nil]
  · have h₂ : l₂ ≠ [] := by
      intro hnil
      exact hc ((hnil ▸ h).eq_nil)
    rw [if_neg (by simpa using hc), if_neg (by simpa using h₂)]
    exact (h.filterMap id).sum_eq

theorem calculate_transfer_volume_perm_witness :
    ([some (3 / 2 : ℚ), none, some 1].Perm [some 1, some (3 / 2 : ℚ), none])
    ∧ calculate_transfer_volume_from_df [some (3 / 2 : ℚ), none, some 1]
        = calculate_transfer_volume_from_df [some 1, some (3 / 2 : ℚ), none] := by
  have hperm : [some (3 / 2 : ℚ), none, some 1].Perm [some 1, some (3 / 2 : ℚ), none] :=
    ((List.Perm.swap (some 1) none []).cons (some (3 / 2 : ℚ))).trans
      (List.Perm.swap (some 1) (some (3 / 2 : ℚ)) [none])
  exact ⟨hperm, calculate_transfer_volume_perm _ _ hperm⟩

/-- C8: when more than `top_n` distinct positive-volume addresses remain, the
ranking keeps the `top_n` highest-volume addresses individually — each kept
entry dominates every dropped entry and carries that address's aggregated
volume — and buckets the remainder as `"Other Addresses"` with its summed
volume, omitting the bucket entirely when that sum is at most the `1e-9`
negligibility cutoff. -/
theorem plot_top_addresses_pie_spec (rows : List (String × Option ℚ)) (top_n : Nat)
    (h : top_n < (address_volume_sorted rows).length) :
    plot_top_addresses_pie rows top_n
      = (address_volume_sorted rows).take top_n
        ++ (if (1 : ℚ) / 10 ^ 9
              < (((address_volume_sorted rows).drop top_n).map Prod.snd).sum
            then [("Other Addresses",
                   (((address_volume_sorted rows).drop top_n).map Prod.snd).sum)]
            else [])
    ∧ (∀ p ∈ (address_volume_sorted rows).take top_n,
        ∀ q ∈ (address_volume_sorted rows).drop top_n, q.2 ≤ p.2)
    ∧ (∀ p ∈ (address_volume_sorted rows).take top_n,
        p.2 = sumOptVals rows p.1 ∧ 0 < p.2) := by
  refine ⟨?_, ?_, ?_⟩
  · unfold plot_top_addresses_pie
    rw [if_pos h]
    by_cases hc : (1 : ℚ) / 10 ^ 9
        < (((address_volume_sorted rows).drop top_n).map Prod.snd).sum
    · rw [if_pos hc, if_pos hc]
    · rw [if_neg hc, if_neg hc, List.append_nil]
  · have htot : ∀ p q : String × ℚ,
        decide (q.2 ≤ p.2) = true ∨ decide (p.2 ≤ q.2) = true := by
      intro p q
      rcases le_total q.2 p.2 with h' | h'
      · exact Or.inl (decide_eq_true h')
      · exact Or.inr (decide_eq_true h')
    have htrans : ∀ p q r : String × ℚ, decide (q.2 ≤ p.2) = true →
        decide (r.2 ≤ q.2) = true → decide (r.2 ≤ p.2) = true := by
      intro p q r h1 h2
      exact decide_eq_true ((of_decide_eq_true h2).trans (of_decide_eq_true h1))
    have hpw : (address_volume_sorted rows).Pairwise (fun p q => q.2 ≤ p.2) :=
      (pairwise_sortBy _ htot htrans (address_volume rows)).imp
        (fun h' => of_decide_eq_true h')
    have happ : ((address_volume_sorted rows).take top_n
        ++ (address_volume_sorted rows).drop top_n).Pairwise
          (fun p q : String × ℚ => q.2 ≤ p.2) := by
      rw [List.take_append_drop]
      exact hpw
    exact (List.pairwise_append.mp happ).2.2
  · intro p hp
    have hmem : p ∈ address_volume_sorted rows := List.take_subset _ _ hp
    have hv : p ∈ address_volume rows :=
      (sortBy_perm (fun p q : String × ℚ => decide (q.2 ≤ p.2))
        (address_volume rows)).mem_iff.mp hmem
    exact mem_address_volume hv

theorem plot_top_addresses_pie_spec_witness :
    3 < (address_volume_sorted demoVolumeRows).length
    ∧ plot_top_addresses_pie demoVolumeRows 3
        = [("0xa", 50), ("0xb", 30), ("0xc", 20), ("Other Addresses", 10)]
    ∧ (∀ p ∈ (address_volume_sorted demoVolumeRows).take 3,
        ∀ q ∈ (address_volume_sorted demoVolumeRows).drop 3, q.2 ≤ p.2) := by
  have hav : address_volume_sorted demoVolumeRows
      = [("0xa", 50), ("0xb", 30), ("0xc", 20), ("0xd", 5), ("0xe", 5)] := by
    norm_num +decide [address_volume_sorted, address_volume, groupKeys, dedupKeys,
      sumOptVals, sortBy, insertBy, demoVolumeRows, List.filterMap_cons,
      List.sum_cons, List.sum_nil]
  have h3 : 3 < (address_volume_sorted demoVolumeRows).length := by
    rw [hav]
    norm_num
  refine ⟨h3, ?_, (plot_top_addresses_pie_spec demoVolumeRows 3 h3).2.1⟩
  rw [plot_top_addresses_pie, hav]
  norm_num

/-- C9 counterexample: two transfers of 600 between the same pair, threshold
1000, cap 50.  Under the build order the claim describes (aggregate per pair
first, then filter by aggregated volume) the pair survives with volume 1200
and count 2; the code instead filters the individual 600-value rows out
before aggregating, and produces an empty graph. -/
theorem network_graph_counterexample :
    plot_network_graph [("0xA", "0xB", some 600), ("0xA", "0xB", some 600)] 1000 50 = []
    ∧ specTransferGraph [("0xA", "0xB", some 600), ("0xA", "0xB", some 600)] 1000 50
        = [(("0xA", "0xB"), 1200, 2)]
    ∧ ([] : List ((String × String) × ℚ × Nat)) ≠ [(("0xA", "0xB"), 1200, 2)] := by
  refine ⟨?_, ?_, by simp⟩
  · norm_num +decide [plot_network_graph, dropnaRows, aggregatePairs, dedupKeys,
      pairVolume, pairCount, sortBy, insertBy, List.filterMap_cons, List.sum_cons,
      List.sum_nil]
  · norm_num +decide [specTransferGraph, dropnaRows, aggregatePairs, dedupKeys,
      pairVolume, pairCount, sortBy, insertBy, List.filterMap_cons, List.sum_cons,
      List.sum_nil]

/-- C9 amended: the transfer graph is built by first filtering out the
individual records whose value is below the caller-supplied minimum volume
threshold, THEN aggregating total volume and transfer count per `(from, to)`
pair over the surviving records, and then keeping only the first
`top_n_edges` pairs by aggregated volume descending: every produced edge
carries the volume sum and row count of its pair among the
threshold-surviving rows, at most `top_n_edges` edges are produced, and they
are ordered by descending aggregated volume. -/
theorem network_graph_amended (rows : List (String × String × Option ℚ))
    (value_threshold : ℚ) (top_n_edges : Nat) :
    plot_network_graph rows value_threshold top_n_edges
      = (sortBy (fun e₁ e₂ => decide (e₂.2.1 ≤ e₁.2.1))
          (aggregatePairs ((dropnaRows rows).filter
            (fun r => decide (value_threshold ≤ r.2.2))))).take top_n_edges
    ∧ (∀ e ∈ plot_network_graph rows value_threshold top_n_edges,
        e.2.1 = pairVolume ((dropnaRows rows).filter
            (fun r => decide (value_threshold ≤ r.2.2))) e.1
        ∧ e.2.2 = pairCount ((dropnaRows rows).filter
            (fun r => decide (value_threshold ≤ r.2.2))) e.1)
    ∧ (plot_network_graph rows value_threshold top_n_edges).length ≤ top_n_edges
    ∧ List.Pairwise (fun e₁ e₂ : (String × String) × ℚ × Nat => e₂.2.1 ≤ e₁.2.1)
        (plot_network_graph rows value_threshold top_n_edges) := by
  refine ⟨rfl, ?_, ?_, ?_⟩
  · intro e he
    have hs : e ∈ sortBy (fun e₁ e₂ => decide (e₂.2.1 ≤ e₁.2.1))
        (aggregatePairs ((dropnaRows rows).filter
          (fun r => decide (value_threshold ≤ r.2.2)))) :=
      List.take_subset _ _ he
    have ha := (sortBy_perm _ _).mem_iff.mp hs
    exact mem_aggregatePairs ha
  · unfold plot_network_graph
    rw [List.length_take]
    exact min_le_left _ _
  · have htot : ∀ p q : (String × String) × ℚ × Nat,
        decide (q.2.1 ≤ p.2.1) = true ∨ decide (p.2.1 ≤ q.2.1) = true := by
      intro p q
      rcases le_total q.2.1 p.2.1 with h' | h'
      · exact Or.inl (decide_eq_true h')
      · exact Or.inr (decide_eq_true h')
    have htrans : ∀ p q r : (String × String) × ℚ × Nat,
        decide (q.2.1 ≤ p.2.1) = true → decide (r.2.1 ≤ q.2.1) = true →
        decide (r.2.1 ≤ p.2.1) = true := by
      intro p q r h1 h2
      exact decide_eq_true ((of_decide_eq_true h2).trans (of_decide_eq_true h1))
    have hpw := (pairwise_sortBy _ htot htrans
      (aggregatePairs ((dropnaRows rows).filter
        (fun r => decide (value_threshold ≤ r.2.2))))).imp
        (fun h' => of_decide_eq_true h')
    exact hpw.sublist (List.take_sublist _ _)

end PyusdApp
